import Mathlib

/-!
# Script-level glue of Pynini: `pathsscript.h` and `concatrangescript.h`

A shallow embedding of the two headers.  Both are forwarding code over
templates that live elsewhere (`paths.h`, `concatrange.h`, OpenFst), so the
wrapped generic classes enter the development as parameters: a record of
operations over an abstract state type.  C++ objects are values, a method that
may modify its object returns the new object, and a pointer dereference that
may be null returns `Option` / `Except`.
-/

namespace fst

/-! ## Machine integers and `std::vector<int64>` -/

/-- Conversion of an integer value to `int64` (two's complement wrap). -/
def toInt64 (v : Int) : Int := (v + 2 ^ 63) % 2 ^ 64 - 2 ^ 63

/-- The values an `int64` can hold. -/
def fitsInt64 (v : Int) : Prop := -(2 ^ 63) ≤ v ∧ v < 2 ^ 63

instance (v : Int) : Decidable (fitsInt64 v) := by
  unfold fitsInt64; exact inferInstance

/-- The member `std::vector<int64>::clear()`. -/
def vectorClear (_v : List Int) : List Int := []

/-- The member `std::vector<int64>::resize(n)`: truncates, or pads with
value-initialised elements. -/
def vectorResize (v : List Int) (n : Nat) : List Int :=
  v.take n ++ List.replicate (n - v.length) 0

/-- The algorithm `std::copy(first, last, out)` into an `int64` range: element
by element assignment with the implicit conversion to `int64`, overwriting the destination
from its beginning.  Writing past the end of the destination is undefined
(`none`). -/
def stdCopy : List Int → List Int → Option (List Int)
  | [], dst => some dst
  | _ :: _, [] => none
  | x :: xs, _ :: dst => (stdCopy xs dst).map (fun r => toInt64 x :: r)

/-! ## Types of the wrapped library that the headers mention -/

/-- The enumeration `StringTokenType` of OpenFst. -/
inductive StringTokenType where
  | SYMBOL
  | BYTE
  | UTF8
  deriving DecidableEq, Repr

/-- Modelled from the spec: a symbol table, "each label is replaced by its
symbol-table name"; the class itself belongs to the wrapped library. -/
abbrev SymbolTable := List (Int × String)

/-- Modelled from the spec: `WeightClass`, the "type-erased representation of
one semiring value", belongs to the wrapped library.  It records the name of
the weight type and the value. -/
structure WeightClass (W : Type) where
  weightType : String
  impl_ : W
  deriving DecidableEq, Repr

namespace WeightClass

/-- Modelled from the spec: the converting constructor `WeightClass(const W &)`
of the wrapped library, the weight "converted to the type-erased weight
representation at the boundary". -/
def ofWeight {W : Type} (typeName : String) (w : W) : WeightClass W :=
  ⟨typeName, w⟩

/-- Modelled from the spec: the copy constructor of `WeightClass` in the
wrapped library, the weight handle "copied out of the generic result": a fresh
handle of the same weight type holding a copy of the value. -/
def copy {W : Type} (w : WeightClass W) : WeightClass W :=
  ⟨w.weightType, w.impl_⟩

end WeightClass

/-- A C++ default argument: an omitted argument (`none`) takes the declared
default. -/
def defaultArg {α : Type} (given : Option α) (dflt : α) : α :=
  match given with
  | some a => a
  | none => dflt

/-- The generic `StringPathIterator<Arc>` of `paths.h` as the script layer
uses it: its constructor and the member functions called in `pathsscript.h`.
`σ` is the state of one iterator object, `F` the automaton type `Fst<Arc>`,
`W` the weight type `Arc::Weight`.  Labels are given by their integer value.
`Done`, `Error`, the label accessors and `Weight` read the state; the string
accessors return the new object state next to the string, since the iterator
may record a failed rendering in its error flag. -/
structure StringPathIterator (F σ W : Type) where
  /-- Name of the weight type, `Arc::Weight::Type()`. -/
  WeightType : String
  /-- The constructor `StringPathIterator(fst, itype, otype, isyms, osyms)`. -/
  ctor : F → StringTokenType → StringTokenType → Option SymbolTable →
    Option SymbolTable → σ
  Done : σ → Bool
  Error : σ → Bool
  ILabels : σ → List Int
  /-- The buffer form `IString(std::string *)`. -/
  IStringInto : σ → String → String × σ
  IString : σ → String × σ
  Next : σ → σ
  OLabels : σ → List Int
  /-- The buffer form `OString(std::string *)`. -/
  OStringInto : σ → String → String × σ
  OString : σ → String × σ
  Reset : σ → σ
  Weight : σ → W

namespace script

/-! ## `StringPathIteratorImpl<Arc>` (pathsscript.h, lines 51-109) -/

/-- The templated implementation: it owns the generic iterator. -/
structure StringPathIteratorImpl (σ : Type) where
  impl_ : σ
  deriving DecidableEq, Repr

namespace StringPathIteratorImpl

variable {F σ W : Type}

/-- The constructor, lines 56-61; the four trailing arguments have defaults
`BYTE`, `BYTE`, `nullptr`, `nullptr`. -/
def ctor (G : StringPathIterator F σ W) (fst : F)
    (itype otype : Option StringTokenType)
    (isyms osyms : Option (Option SymbolTable)) : StringPathIteratorImpl σ :=
  ⟨G.ctor fst (defaultArg itype StringTokenType.BYTE)
    (defaultArg otype StringTokenType.BYTE)
    (defaultArg isyms none) (defaultArg osyms none)⟩

def Done (G : StringPathIterator F σ W) (x : StringPathIteratorImpl σ) : Bool :=
  G.Done x.impl_

def Error (G : StringPathIterator F σ W) (x : StringPathIteratorImpl σ) : Bool :=
  G.Error x.impl_

/-- The buffer form `ILabels(std::vector<int64> *labels)`, lines 67-72; the
result is the content of `*labels` afterwards. -/
def ILabelsInto (G : StringPathIterator F σ W) (x : StringPathIteratorImpl σ)
    (labels : List Int) : Option (List Int) :=
  let typed_labels := G.ILabels x.impl_
  let labels := vectorClear labels
  let labels := vectorResize labels typed_labels.length
  stdCopy typed_labels labels

/-- The value form `ILabels()`, lines 74-78. -/
def ILabels (G : StringPathIterator F σ W) (x : StringPathIteratorImpl σ) :
    Option (List Int) :=
  let labels : List Int := []
  ILabelsInto G x labels

def IStringInto (G : StringPathIterator F σ W) (x : StringPathIteratorImpl σ)
    (result : String) : String × StringPathIteratorImpl σ :=
  ((G.IStringInto x.impl_ result).1, ⟨(G.IStringInto x.impl_ result).2⟩)

def IString (G : StringPathIterator F σ W) (x : StringPathIteratorImpl σ) :
    String × StringPathIteratorImpl σ :=
  ((G.IString x.impl_).1, ⟨(G.IString x.impl_).2⟩)

def Next (G : StringPathIterator F σ W) (x : StringPathIteratorImpl σ) :
    StringPathIteratorImpl σ :=
  ⟨G.Next x.impl_⟩

def Reset (G : StringPathIterator F σ W) (x : StringPathIteratorImpl σ) :
    StringPathIteratorImpl σ :=
  ⟨G.Reset x.impl_⟩

/-- The buffer form `OLabels(std::vector<int64> *labels)`, lines 88-93. -/
def OLabelsInto (G : StringPathIterator F σ W) (x : StringPathIteratorImpl σ)
    (labels : List Int) : Option (List Int) :=
  let typed_labels := G.OLabels x.impl_
  let labels := vectorClear labels
  let labels := vectorResize labels typed_labels.length
  stdCopy typed_labels labels

/-- The value form `OLabels()`, lines 95-99. -/
def OLabels (G : StringPathIterator F σ W) (x : StringPathIteratorImpl σ) :
    Option (List Int) :=
  let labels : List Int := []
  OLabelsInto G x labels

def OStringInto (G : StringPathIterator F σ W) (x : StringPathIteratorImpl σ)
    (result : String) : String × StringPathIteratorImpl σ :=
  ((G.OStringInto x.impl_ result).1, ⟨(G.OStringInto x.impl_ result).2⟩)

def OString (G : StringPathIterator F σ W) (x : StringPathIteratorImpl σ) :
    String × StringPathIteratorImpl σ :=
  ((G.OString x.impl_).1, ⟨(G.OString x.impl_).2⟩)

/-- Line 105: `WeightClass(impl_->Weight())`, the converting constructor. -/
def Weight (G : StringPathIterator F σ W) (x : StringPathIteratorImpl σ) :
    WeightClass W :=
  WeightClass.ofWeight G.WeightType (G.Weight x.impl_)

end StringPathIteratorImpl


/-! ## `StringPathIteratorClass` (pathsscript.h, lines 118-163) -/

/-- The member functions declared pure virtual in `StringPathIteratorImplBase`,
lines 34-46.  The buffer forms carry the suffix `Into`. -/
inductive Member where
  | Done
  | Error
  | ILabelsInto
  | ILabels
  | IStringInto
  | IString
  | Next
  | OLabelsInto
  | OLabels
  | OStringInto
  | OString
  | Reset
  | Weight
  deriving DecidableEq, Repr

/-- The interface of `StringPathIteratorImplBase`, in the order of lines 34-46;
`StringPathIteratorImpl<Arc>` overrides each of them. -/
def StringPathIteratorImplBase.members : List Member :=
  [Member.Done, Member.Error, Member.ILabelsInto, Member.ILabels,
   Member.IStringInto, Member.IString, Member.Next, Member.OLabelsInto,
   Member.OLabels, Member.OStringInto, Member.OString, Member.Reset,
   Member.Weight]

/-- The forwarding member functions that `StringPathIteratorClass` declares,
in the order of lines 133-159. -/
def StringPathIteratorClass.members : List Member :=
  [Member.Done, Member.Error, Member.ILabelsInto, Member.ILabels,
   Member.IStringInto, Member.IString, Member.Next, Member.Reset,
   Member.OLabelsInto, Member.OLabels, Member.OString, Member.Weight]

/-- An argument written after `fst` in a constructor call of
`StringPathIteratorClass`: a token type, or a symbol-table pointer (`none` is
`nullptr`).  Neither converts implicitly to the other. -/
inductive CtorArg where
  | tokenType (t : StringTokenType)
  | symbolTable (s : Option SymbolTable)
  deriving DecidableEq, Repr

/-- Why the compiler rejects a constructor call. -/
inductive OverloadError where
  | noMatchingFunction
  | ambiguous
  deriving DecidableEq, Repr

/-- The untemplated user-facing class: it owns a pointer to the
implementation, null until an implementation is stored. -/
structure StringPathIteratorClass (σ : Type) where
  impl_ : Option (StringPathIteratorImpl σ)
  deriving DecidableEq, Repr

namespace StringPathIteratorClass

variable {F σ W : Type}

/-- The convenience constructor, lines 129-131, entered with its parameters
bound: it delegates to the five-argument constructor `full`, whose body is
outside the header. -/
def ctorSame {R : Type}
    (full : F → StringTokenType → StringTokenType → Option SymbolTable →
      Option SymbolTable → R)
    (fst : F) (type : StringTokenType) (syms : Option SymbolTable) : R :=
  full fst type type syms syms

/-- The declaration of lines 121-125 as an overload candidate: the parameters
`(itype = BYTE, otype = BYTE, isyms = nullptr, osyms = nullptr)` bound to the
arguments written after `fst`, `none` when the candidate is not viable. -/
def fullCandidate : List CtorArg →
    Option (StringTokenType × StringTokenType × Option SymbolTable × Option SymbolTable)
  | [] => some (StringTokenType.BYTE, StringTokenType.BYTE, none, none)
  | [CtorArg.tokenType a] => some (a, StringTokenType.BYTE, none, none)
  | [CtorArg.tokenType a, CtorArg.tokenType b] => some (a, b, none, none)
  | [CtorArg.tokenType a, CtorArg.tokenType b, CtorArg.symbolTable c] =>
    some (a, b, c, none)
  | [CtorArg.tokenType a, CtorArg.tokenType b, CtorArg.symbolTable c,
      CtorArg.symbolTable d] => some (a, b, c, d)
  | _ => none

/-- The declaration of lines 129-131 as an overload candidate: the parameters
`(type, syms = nullptr)` bound to the arguments written after `fst`, `none`
when the candidate is not viable. -/
def sameCandidate : List CtorArg → Option (StringTokenType × Option SymbolTable)
  | [CtorArg.tokenType a] => some (a, none)
  | [CtorArg.tokenType a, CtorArg.symbolTable s] => some (a, s)
  | _ => none

/-- A constructor call `StringPathIteratorClass(fst, args...)` against the two
constructors the class declares.  Where both are viable every argument binds
to a parameter of its own type in both, so neither is the better match and the
call is ambiguous; otherwise the one viable constructor runs. -/
def construct {R : Type}
    (full : F → StringTokenType → StringTokenType → Option SymbolTable →
      Option SymbolTable → R)
    (fst : F) (args : List CtorArg) : Except OverloadError R :=
  match fullCandidate args, sameCandidate args with
  | some _, some _ => Except.error OverloadError.ambiguous
  | some (itype, otype, isyms, osyms), none =>
    Except.ok (full fst itype otype isyms osyms)
  | none, some (type, syms) => Except.ok (ctorSame full fst type syms)
  | none, none => Except.error OverloadError.noMatchingFunction

def Done (G : StringPathIterator F σ W) (c : StringPathIteratorClass σ) :
    Option Bool :=
  match c.impl_ with
  | none => none
  | some i => some (i.Done G)

def Error (G : StringPathIterator F σ W) (c : StringPathIteratorClass σ) :
    Option Bool :=
  match c.impl_ with
  | none => none
  | some i => some (i.Error G)

def ILabelsInto (G : StringPathIterator F σ W) (c : StringPathIteratorClass σ)
    (labels : List Int) : Option (List Int) :=
  match c.impl_ with
  | none => none
  | some i => i.ILabelsInto G labels

def ILabels (G : StringPathIterator F σ W) (c : StringPathIteratorClass σ) :
    Option (List Int) :=
  match c.impl_ with
  | none => none
  | some i => i.ILabels G

def IStringInto (G : StringPathIterator F σ W) (c : StringPathIteratorClass σ)
    (result : String) : Option (String × StringPathIteratorClass σ) :=
  match c.impl_ with
  | none => none
  | some i => some ((i.IStringInto G result).1, ⟨some (i.IStringInto G result).2⟩)

def IString (G : StringPathIterator F σ W) (c : StringPathIteratorClass σ) :
    Option (String × StringPathIteratorClass σ) :=
  match c.impl_ with
  | none => none
  | some i => some ((i.IString G).1, ⟨some (i.IString G).2⟩)

def Next (G : StringPathIterator F σ W) (c : StringPathIteratorClass σ) :
    Option (StringPathIteratorClass σ) :=
  match c.impl_ with
  | none => none
  | some i => some ⟨some (i.Next G)⟩

def Reset (G : StringPathIterator F σ W) (c : StringPathIteratorClass σ) :
    Option (StringPathIteratorClass σ) :=
  match c.impl_ with
  | none => none
  | some i => some ⟨some (i.Reset G)⟩

def OLabelsInto (G : StringPathIterator F σ W) (c : StringPathIteratorClass σ)
    (labels : List Int) : Option (List Int) :=
  match c.impl_ with
  | none => none
  | some i => i.OLabelsInto G labels

def OLabels (G : StringPathIterator F σ W) (c : StringPathIteratorClass σ) :
    Option (List Int) :=
  match c.impl_ with
  | none => none
  | some i => i.OLabels G

def OString (G : StringPathIterator F σ W) (c : StringPathIteratorClass σ) :
    Option (String × StringPathIteratorClass σ) :=
  match c.impl_ with
  | none => none
  | some i => some ((i.OString G).1, ⟨some (i.OString G).2⟩)

/-- Line 159: `WeightClass(impl_->Weight())`; the argument is already a
`WeightClass`, so this is its copy constructor. -/
def Weight (G : StringPathIterator F σ W) (c : StringPathIteratorClass σ) :
    Option (WeightClass W) :=
  match c.impl_ with
  | none => none
  | some i => some (WeightClass.copy (i.Weight G))

end StringPathIteratorClass

/-! ## `InitStringPathIteratorClass<Arc>` (pathsscript.h, lines 165-171) -/

/-- Modelled from the spec: `FstClass`, the non-generic automaton handle of the
wrapped library; it "wraps ownership of one concrete generic automaton instance
plus its runtime type tag". -/
structure FstClass (F : Type) where
  ArcType : String
  impl_ : F
  deriving DecidableEq, Repr

/-- Modelled from the spec: `FstClass::GetFst<Arc>()` of the wrapped library,
"obtain the underlying generic automaton reference from the handle"; a handle
of another arc type gives the null pointer. -/
def FstClass.GetFst {F : Type} (Arc : String) (h : FstClass F) : Option F :=
  if Arc ≠ h.ArcType then none else some h.impl_

/-- The argument pack `InitStringPathIteratorClassArgs`, lines 113-116; field
`geti` is `std::get<i>`.  The last component points to the cursor under
construction and is passed as that cursor's state. -/
structure InitStringPathIteratorClassArgs (F σ : Type) where
  get0 : FstClass F
  get1 : StringTokenType
  get2 : StringTokenType
  get3 : Option SymbolTable
  get4 : Option SymbolTable
  get5 : StringPathIteratorClass σ

/-- Lines 165-171; the result is the state of the cursor `*std::get<5>(*args)`
afterwards, `none` when `GetFst<Arc>()` is null and is dereferenced. -/
def InitStringPathIteratorClass {F σ W : Type} (Arc : String)
    (G : StringPathIterator F σ W) (args : InitStringPathIteratorClassArgs F σ) :
    Option (StringPathIteratorClass σ) :=
  match args.get0.GetFst Arc with
  | none => none
  | some fst =>
    some { args.get5 with
      impl_ := some (StringPathIteratorImpl.ctor G fst (some args.get1)
        (some args.get2) (some args.get3) (some args.get4)) }

/-- Modelled from the spec: the five-argument constructor of
`StringPathIteratorClass`, declared at lines 121-125 with the defaults `BYTE`,
`BYTE`, `nullptr`, `nullptr` and defined outside the header.  "Construction
reads the automaton handle's runtime type tag, selects the matching compiled
instantiation of the generic path-iterator, constructs it with the concrete
automaton reference and the supplied token types/symbol tables, and stores it
behind a single abstract interface"; a tag with no matching instantiation "is a
fatal construction failure".  `inst` is the table of compiled instantiations. -/
def StringPathIteratorClass.ctor {F σ W : Type}
    (inst : String → Option (StringPathIterator F σ W)) (fst : FstClass F)
    (itype otype : Option StringTokenType)
    (isyms osyms : Option (Option SymbolTable)) :
    Option (StringPathIteratorClass σ) :=
  match inst fst.ArcType with
  | none => none
  | some G =>
    InitStringPathIteratorClass fst.ArcType G
      ⟨fst, defaultArg itype StringTokenType.BYTE,
        defaultArg otype StringTokenType.BYTE,
        defaultArg isyms none, defaultArg osyms none, ⟨none⟩⟩

/-! ## `ConcatRange<Arc>` (concatrangescript.h, lines 29-37) -/

/-- Modelled from the spec: `MutableFstClass`, the mutable automaton handle of
the wrapped library, with its runtime type tag. -/
structure MutableFstClass (F : Type) where
  ArcType : String
  impl_ : F
  deriving DecidableEq, Repr

/-- Modelled from the spec: `MutableFstClass::GetMutableFst<Arc>()` of the
wrapped library, "obtain the underlying generic mutable automaton reference
from the handle"; a handle of another arc type gives the null pointer. -/
def MutableFstClass.GetMutableFst {F : Type} (Arc : String)
    (h : MutableFstClass F) : Option F :=
  if Arc ≠ h.ArcType then none else some h.impl_

/-- The automaton handles alive in the program, by address. -/
abbrev Handles (F : Type) := Nat → Option (MutableFstClass F)

/-- The argument pack `ConcatRangeArgs`, line 29: a pointer to the handle and
the two `int32` bounds; field `geti` is `std::get<i>`. -/
structure ConcatRangeArgs where
  get0 : Nat
  get1 : Int
  get2 : Int
  deriving DecidableEq, Repr

/-- How a call of the script-level operation can fail. -/
inductive ScriptError (ε : Type) where
  /-- A null or dangling pointer is dereferenced. -/
  | nullPointer
  /-- The handle's type tag has no compiled instantiation. -/
  | unsupportedArcType
  /-- The generic operation reports a failure. -/
  | algorithmic (e : ε)
  deriving DecidableEq, Repr

/-- Lines 31-35.  `generic` is the generic `ConcatRange(MutableFst<Arc> *,
int32, int32)` of `concatrange.h`: from the automaton before the call it gives
the automaton after it, or a failure.  The result is the collection of handles
after the call. -/
def ConcatRange {F ε : Type} (Arc : String)
    (generic : F → Int → Int → Except ε F) (args : ConcatRangeArgs)
    (handles : Handles F) : Except (ScriptError ε) (Handles F) :=
  match handles args.get0 with
  | none => Except.error ScriptError.nullPointer
  | some h =>
    match h.GetMutableFst Arc with
    | none => Except.error ScriptError.nullPointer
    | some fst =>
      match generic fst args.get1 args.get2 with
      | Except.error e => Except.error (ScriptError.algorithmic e)
      | Except.ok fst' =>
        Except.ok (Function.update handles args.get0 (some { h with impl_ := fst' }))

/-- Modelled from the spec: the untemplated `ConcatRange(MutableFstClass *,
int32 lower = 0, int32 upper = 0)`, declared at line 37 and defined outside the
header.  "Read the type tag from the handle, select the matching compiled
instantiation of the generic operation, ... invoke the generic operation with
the same lower/upper arguments, then return"; it fails "if the handle's runtime
type tag does not match any known instantiation".  `inst` is the table of
compiled instantiations. -/
def ConcatRangeFstClass {F ε : Type}
    (inst : String → Option (F → Int → Int → Except ε F)) (fst : Nat)
    (lower upper : Option Int) (handles : Handles F) :
    Except (ScriptError ε) (Handles F) :=
  match handles fst with
  | none => Except.error ScriptError.nullPointer
  | some h =>
    match inst h.ArcType with
    | none => Except.error ScriptError.unsupportedArcType
    | some generic =>
      ConcatRange h.ArcType generic ⟨fst, defaultArg lower 0, defaultArg upper 0⟩
        handles


/-! ## Call sequences and instrumented generic operations -/

/-- The two calls that move a cursor. -/
inductive Call where
  | Next
  | Reset
  deriving DecidableEq, Repr

/-- A sequence of `Next()` / `Reset()` calls on the generic iterator. -/
def applyCallsGeneric {F σ W : Type} (G : StringPathIterator F σ W) :
    List Call → σ → σ
  | [], s => s
  | Call.Next :: cs, s => applyCallsGeneric G cs (G.Next s)
  | Call.Reset :: cs, s => applyCallsGeneric G cs (G.Reset s)

/-- The same sequence of calls on the user-facing cursor. -/
def applyCalls {F σ W : Type} (G : StringPathIterator F σ W) :
    List Call → StringPathIteratorClass σ → Option (StringPathIteratorClass σ)
  | [], c => some c
  | Call.Next :: cs, c =>
    match c.Next G with
    | none => none
    | some c' => applyCalls G cs c'
  | Call.Reset :: cs, c =>
    match c.Reset G with
    | none => none
    | some c' => applyCalls G cs c'

/-- A generic iterator that keeps, next to its state, the list of the `Next()`
and `Reset()` invocations it has received, oldest first. -/
def logged {F σ W : Type} (G : StringPathIterator F σ W) :
    StringPathIterator F (σ × List Call) W where
  WeightType := G.WeightType
  ctor := fun fst itype otype isyms osyms => (G.ctor fst itype otype isyms osyms, [])
  Done := fun s => G.Done s.1
  Error := fun s => G.Error s.1
  ILabels := fun s => G.ILabels s.1
  IStringInto := fun s r => ((G.IStringInto s.1 r).1, ((G.IStringInto s.1 r).2, s.2))
  IString := fun s => ((G.IString s.1).1, ((G.IString s.1).2, s.2))
  Next := fun s => (G.Next s.1, s.2 ++ [Call.Next])
  OLabels := fun s => G.OLabels s.1
  OStringInto := fun s r => ((G.OStringInto s.1 r).1, ((G.OStringInto s.1 r).2, s.2))
  OString := fun s => ((G.OString s.1).1, ((G.OString s.1).2, s.2))
  Reset := fun s => (G.Reset s.1, s.2 ++ [Call.Reset])
  Weight := fun s => G.Weight s.1

/-- A generic `ConcatRange` that keeps, next to the automaton, the list of the
`(lower, upper)` pairs it has been invoked with, oldest first. -/
def loggedConcatRange {F ε : Type} (generic : F → Int → Int → Except ε F) :
    F × List (Int × Int) → Int → Int → Except ε (F × List (Int × Int)) :=
  fun a lower upper =>
    match generic a.1 lower upper with
    | Except.error e => Except.error e
    | Except.ok fst' => Except.ok (fst', a.2 ++ [(lower, upper)])

end script

/-! ## The wrapped generic operations, from their description -/

/-- Modelled from the spec: one accepting path as the generic enumeration of
`paths.h` presents it, "the label sequence along the input/output tape" and
"the semiring weight accumulated along the current path". -/
structure Path (W : Type) where
  ilabels : List Int
  olabels : List Int
  weight : W
  deriving DecidableEq, Repr

/-- Modelled from the spec: the state of the generic `StringPathIterator<Arc>`
of `paths.h`: "a restartable forward cursor over every accepting path" with a
sticky error flag and the configured token types and symbol tables. -/
structure PathCursor (W : Type) where
  paths : List (Path W)
  pos : Nat
  error : Bool
  itype : StringTokenType
  otype : StringTokenType
  isyms : Option SymbolTable
  osyms : Option SymbolTable
  deriving DecidableEq, Repr

namespace PathCursor

variable {W : Type}

/-- Modelled from the spec: `Done()` of the generic iterator of `paths.h`,
"true once enumeration is exhausted". -/
def Done (c : PathCursor W) : Bool := decide (c.paths.length ≤ c.pos)

/-- Modelled from the spec: `ILabels()` of the generic iterator, "the label
sequence along the input tape of the path at the current position". -/
def ILabels (c : PathCursor W) : List Int :=
  match c.paths.get? c.pos with
  | some p => p.ilabels
  | none => []

/-- Modelled from the spec: `OLabels()` of the generic iterator, the label
sequence along the output tape of the path at the current position. -/
def OLabels (c : PathCursor W) : List Int :=
  match c.paths.get? c.pos with
  | some p => p.olabels
  | none => []

/-- Modelled from the spec: `Weight()` of the generic iterator, the weight of
the current path (`zero` when there is none). -/
def Weight (zero : W) (c : PathCursor W) : W :=
  match c.paths.get? c.pos with
  | some p => p.weight
  | none => zero

/-- Modelled from the spec: the buffer form `IString(std::string *)` of the
generic iterator, "the textual rendering of the corresponding label sequence
under the configured token type and symbol table", where "an undecodable label
sets Error()".  `render` is the label-to-string projection of the wrapped
library; it gives the text and whether every label could be decoded. -/
def IStringInto
    (render : StringTokenType → Option SymbolTable → List Int → String × Bool)
    (c : PathCursor W) (_result : String) : String × PathCursor W :=
  ((render c.itype c.isyms c.ILabels).1,
    if (render c.itype c.isyms c.ILabels).2 then c else { c with error := true })

/-- Modelled from the spec: the buffer form `OString(std::string *)` of the
generic iterator, as `IStringInto` on the output tape. -/
def OStringInto
    (render : StringTokenType → Option SymbolTable → List Int → String × Bool)
    (c : PathCursor W) (_result : String) : String × PathCursor W :=
  ((render c.otype c.osyms c.OLabels).1,
    if (render c.otype c.osyms c.OLabels).2 then c else { c with error := true })

/-- Modelled from the spec: `Next()` of the generic iterator, "advances to the
next path in enumeration order; no-op if already Done()". -/
def Next (c : PathCursor W) : PathCursor W :=
  if c.Done then c else { c with pos := c.pos + 1 }

/-- Modelled from the spec: `Reset()` of the generic iterator, "returns the
cursor to the first path, clearing Done but not necessarily clearing a
previously-sticky Error". -/
def Reset (c : PathCursor W) : PathCursor W := { c with pos := 0 }

end PathCursor

/-- Modelled from the spec: the generic `StringPathIterator<Arc>` of `paths.h`,
absent from the sources, assembled from the operations above.  `enumerate`
gives the accepting paths of an automaton in enumeration order, `malformed`
tells whether the enumeration "encountered a structural problem", `render` is
the label-to-string projection; the value forms of the string accessors are "a
convenience composition of the buffer form". -/
def specStringPathIterator {F W : Type} (weightType : String) (zero : W)
    (enumerate : F → List (Path W)) (malformed : F → Bool)
    (render : StringTokenType → Option SymbolTable → List Int → String × Bool) :
    StringPathIterator F (PathCursor W) W where
  WeightType := weightType
  ctor := fun fst itype otype isyms osyms =>
    ⟨enumerate fst, 0, malformed fst, itype, otype, isyms, osyms⟩
  Done := PathCursor.Done
  Error := fun c => c.error
  ILabels := PathCursor.ILabels
  IStringInto := PathCursor.IStringInto render
  IString := fun c => PathCursor.IStringInto render c ""
  Next := PathCursor.Next
  OLabels := PathCursor.OLabels
  OStringInto := PathCursor.OStringInto render
  OString := fun c => PathCursor.OStringInto render c ""
  Reset := PathCursor.Reset
  Weight := PathCursor.Weight zero

/-- The failure of the generic bounded repetition. -/
inductive AlgorithmicFailure where
  | invalidRangeBounds
  deriving DecidableEq, Repr

/-- Modelled from the spec: the generic `ConcatRange(MutableFst<Arc> *, int32,
int32)` of `concatrange.h`, absent from the sources.  It "fails if
lower > upper and upper != 0" and then "leaves no usable automaton mutation";
otherwise it replaces the automaton by the one "recognizing the concatenation
of between lower and upper copies" of its language, which `rangeRepeat`
builds. -/
def genericConcatRange {F : Type} (rangeRepeat : F → Int → Int → F) (fst : F)
    (lower upper : Int) : Except AlgorithmicFailure F :=
  if lower > upper ∧ upper ≠ 0 then Except.error AlgorithmicFailure.invalidRangeBounds
  else Except.ok (rangeRepeat fst lower upper)

/-! ## Concrete data for the instances below -/

namespace Example

/-- A rendering for the raw-byte token type: the characters with the labels as
codes. -/
def byteRender (_t : StringTokenType) (_syms : Option SymbolTable)
    (labels : List Int) : String × Bool :=
  (String.mk (labels.map (fun l => Char.ofNat l.toNat)), true)

/-- The three paths "ab", "ac", "ad" of the end-to-end scenario, as an
automaton given by its accepting paths, with natural-number weights. -/
def abcd : List (Path Nat) :=
  [⟨[97, 98], [97, 98], 1⟩, ⟨[97, 99], [97, 99], 2⟩, ⟨[97, 100], [97, 100], 3⟩]

/-- The generic iterator over automata given by their accepting paths. -/
def iter : StringPathIterator (List (Path Nat)) (PathCursor Nat) Nat :=
  specStringPathIterator "tropical" 0 (fun fst => fst) (fun _ => false) byteRender

/-- A cursor over `abcd` that has been advanced past its last path. -/
def exhausted : PathCursor Nat :=
  ⟨abcd, 3, false, StringTokenType.BYTE, StringTokenType.BYTE, none, none⟩

/-- An automaton with one path that carries a negative label and the largest
`int32` label. -/
def signedLabels : List (Path Nat) :=
  [⟨[-1, 2147483647], [0, -2147483648], 0⟩]

/-- One live handle, at address 7, of arc type "standard"; the automaton is
stood for by a number. -/
def handles : script.Handles Nat :=
  fun a => if a = 7 then some ⟨"standard", 5⟩ else none

/-- A stand-in for the generic range repetition on the numbers standing for
automata. -/
def rangeRepeat (fst : Nat) (lower upper : Int) : Nat :=
  fst * (lower.toNat + upper.toNat + 1)

end Example

/-! ## Lemmas on the vector operations -/

theorem toInt64_of_fitsInt64 {v : Int} (h : fitsInt64 v) : toInt64 v = v := by
  unfold fitsInt64 at h
  unfold toInt64
  have h1 : (0 : Int) ≤ v + 2 ^ 63 := by omega
  have h2 : v + 2 ^ 63 < 2 ^ 64 := by omega
  rw [Int.emod_eq_of_lt h1 h2]
  omega

theorem map_toInt64_of_fitsInt64 {xs : List Int} (h : ∀ l ∈ xs, fitsInt64 l) :
    xs.map toInt64 = xs := by
  induction xs with
  | nil => rfl
  | cons x xs ih =>
    have hx : toInt64 x = x := toInt64_of_fitsInt64 (h x (List.mem_cons_self x xs))
    have hxs : xs.map toInt64 = xs := ih (fun l hl => h l (List.mem_cons_of_mem x hl))
    simp [hx, hxs]

theorem vectorResize_vectorClear (v : List Int) (n : Nat) :
    vectorResize (vectorClear v) n = List.replicate n 0 := by
  simp [vectorResize, vectorClear]

theorem stdCopy_replicate (xs : List Int) :
    stdCopy xs (List.replicate xs.length 0) = some (xs.map toInt64) := by
  induction xs with
  | nil => rfl
  | cons x xs ih => simp [List.replicate_succ, stdCopy, ih]

namespace script

theorem StringPathIteratorImpl.ILabelsInto_eq {F σ W : Type}
    (G : StringPathIterator F σ W) (x : StringPathIteratorImpl σ) (buf : List Int) :
    x.ILabelsInto G buf = some ((G.ILabels x.impl_).map toInt64) := by
  simp only [StringPathIteratorImpl.ILabelsInto, vectorResize_vectorClear]
  exact stdCopy_replicate _

theorem StringPathIteratorImpl.OLabelsInto_eq {F σ W : Type}
    (G : StringPathIterator F σ W) (x : StringPathIteratorImpl σ) (buf : List Int) :
    x.OLabelsInto G buf = some ((G.OLabels x.impl_).map toInt64) := by
  simp only [StringPathIteratorImpl.OLabelsInto, vectorResize_vectorClear]
  exact stdCopy_replicate _

/-! ## The claims -/

/-- C1: for every cursor position `x` and every prior content `buf` of the
caller's buffer, the buffer form of `ILabels` leaves in the buffer exactly the
sequence the value form returns, on `StringPathIteratorImpl` and on
`StringPathIteratorClass` (whose cursor holds `x`), and both forms do return a
sequence; the same for `OLabels`.  The prior content `buf` does not appear on
the right-hand sides: it is discarded. -/
theorem labels_buffer_form_eq_value_form {F σ W : Type}
    (G : StringPathIterator F σ W) (x : StringPathIteratorImpl σ) (buf : List Int) :
    (x.ILabelsInto G buf = x.ILabels G ∧ (x.ILabels G).isSome = true) ∧
    (x.OLabelsInto G buf = x.OLabels G ∧ (x.OLabels G).isSome = true) ∧
    (StringPathIteratorClass.ILabelsInto G ⟨some x⟩ buf
        = StringPathIteratorClass.ILabels G ⟨some x⟩ ∧
      (StringPathIteratorClass.ILabels G ⟨some x⟩).isSome = true) ∧
    (StringPathIteratorClass.OLabelsInto G ⟨some x⟩ buf
        = StringPathIteratorClass.OLabels G ⟨some x⟩ ∧
      (StringPathIteratorClass.OLabels G ⟨some x⟩).isSome = true) := by
  have hi : x.ILabels G = some ((G.ILabels x.impl_).map toInt64) :=
    StringPathIteratorImpl.ILabelsInto_eq G x []
  have ho : x.OLabels G = some ((G.OLabels x.impl_).map toInt64) :=
    StringPathIteratorImpl.OLabelsInto_eq G x []
  have hib := StringPathIteratorImpl.ILabelsInto_eq G x buf
  have hob := StringPathIteratorImpl.OLabelsInto_eq G x buf
  refine ⟨⟨?_, ?_⟩, ⟨?_, ?_⟩, ⟨?_, ?_⟩, ⟨?_, ?_⟩⟩
  · rw [hib, hi]
  · rw [hi]; rfl
  · rw [hob, ho]
  · rw [ho]; rfl
  · simp only [StringPathIteratorClass.ILabelsInto, StringPathIteratorClass.ILabels]
    rw [hib, hi]
  · simp only [StringPathIteratorClass.ILabels]
    rw [hi]; rfl
  · simp only [StringPathIteratorClass.OLabelsInto, StringPathIteratorClass.OLabels]
    rw [hob, ho]
  · simp only [StringPathIteratorClass.OLabels]
    rw [ho]; rfl

/-- C2: for every cursor position, `ILabels()` returns the input-tape labels of
the wrapped generic iterator and `OLabels()` its output-tape labels, element by
element converted to `int64` (same length, same order); when the underlying
labels are values an `int64` can hold, as the labels of every signed label type
of at most 64 bits are, the returned integers are the underlying labels
themselves, negative ones included. -/
theorem labels_eq_generic_labels {F σ W : Type}
    (G : StringPathIterator F σ W) (x : StringPathIteratorImpl σ)
    (hi : ∀ l ∈ G.ILabels x.impl_, fitsInt64 l)
    (ho : ∀ l ∈ G.OLabels x.impl_, fitsInt64 l) :
    x.ILabels G = some ((G.ILabels x.impl_).map toInt64) ∧
    x.OLabels G = some ((G.OLabels x.impl_).map toInt64) ∧
    x.ILabels G = some (G.ILabels x.impl_) ∧
    x.OLabels G = some (G.OLabels x.impl_) ∧
    StringPathIteratorClass.ILabels G ⟨some x⟩ = some (G.ILabels x.impl_) ∧
    StringPathIteratorClass.OLabels G ⟨some x⟩ = some (G.OLabels x.impl_) := by
  have hi' : x.ILabels G = some ((G.ILabels x.impl_).map toInt64) :=
    StringPathIteratorImpl.ILabelsInto_eq G x []
  have ho' : x.OLabels G = some ((G.OLabels x.impl_).map toInt64) :=
    StringPathIteratorImpl.OLabelsInto_eq G x []
  have ei := map_toInt64_of_fitsInt64 hi
  have eo := map_toInt64_of_fitsInt64 ho
  refine ⟨hi', ho', ?_, ?_, ?_, ?_⟩
  · rw [hi', ei]
  · rw [ho', eo]
  · simp only [StringPathIteratorClass.ILabels]
    rw [hi', ei]
  · simp only [StringPathIteratorClass.OLabels]
    rw [ho', eo]

/-- Instance of C2 on a path with the labels -1 and 2147483647 on the input
tape and 0 and -2147483648 on the output tape. -/
theorem labels_eq_generic_labels_witness :
    StringPathIteratorImpl.ILabels Example.iter
        (StringPathIteratorImpl.ctor Example.iter Example.signedLabels
          none none none none) = some [-1, 2147483647] ∧
    StringPathIteratorImpl.OLabels Example.iter
        (StringPathIteratorImpl.ctor Example.iter Example.signedLabels
          none none none none) = some [0, -2147483648] := by
  have h := labels_eq_generic_labels Example.iter
    (StringPathIteratorImpl.ctor Example.iter Example.signedLabels none none none none)
    (by decide) (by decide)
  exact ⟨h.2.2.1, h.2.2.2.1⟩

/-- C3: `StringPathIteratorClass` declares the buffer form and the value form
of `IString` but only the value form of `OString`: the buffer form
`OString(std::string *)` is in the interface of `StringPathIteratorImplBase`
and is the one member of that interface the user-facing class does not
forward. -/
theorem StringPathIteratorClass_lacks_OStringInto :
    Member.IStringInto ∈ StringPathIteratorClass.members ∧
    Member.IString ∈ StringPathIteratorClass.members ∧
    Member.OString ∈ StringPathIteratorClass.members ∧
    Member.OStringInto ∉ StringPathIteratorClass.members ∧
    Member.OStringInto ∈ StringPathIteratorImplBase.members ∧
    (∀ m ∈ StringPathIteratorImplBase.members,
      m ∉ StringPathIteratorClass.members → m = Member.OStringInto) := by
  decide

theorem ConcatRange_eq {F ε : Type} (Arc : String)
    (generic : F → Int → Int → Except ε F) (args : ConcatRangeArgs)
    (handles : Handles F) (h : MutableFstClass F)
    (hlive : handles args.get0 = some h) (harc : h.ArcType = Arc) :
    ConcatRange Arc generic args handles =
      match generic h.impl_ args.get1 args.get2 with
      | Except.error e => Except.error (ScriptError.algorithmic e)
      | Except.ok fst' =>
        Except.ok (Function.update handles args.get0 (some ⟨Arc, fst'⟩)) := by
  subst harc
  simp only [ConcatRange, hlive, MutableFstClass.GetMutableFst, ne_eq,
    not_true_eq_false, if_false]

/-- C4: for a live handle `h` of arc type `Arc` and any bounds, the dispatched
`ConcatRange<Arc>(args)` is one application of the generic operation to the
automaton held by the handle, with `lower = std::get<1>` and
`upper = std::get<2>`: when the generic operation gives `fst'`, the handle at
`std::get<0>` afterwards holds `fst'` under the same type tag and every other
address holds what it held before, and a failure of the generic operation is
passed on.  With a generic operation that logs its invocations, the log grows
by the one entry `(std::get<1>, std::get<2>)`. -/
theorem ConcatRange_applies_generic_once {F ε : Type} (Arc : String)
    (generic : F → Int → Int → Except ε F) (args : ConcatRangeArgs)
    (handles : Handles F) (h : MutableFstClass F)
    (hlive : handles args.get0 = some h) (harc : h.ArcType = Arc) :
    (∀ fst', generic h.impl_ args.get1 args.get2 = Except.ok fst' →
      ∃ handles', ConcatRange Arc generic args handles = Except.ok handles' ∧
        handles' args.get0 = some ⟨Arc, fst'⟩ ∧
        ∀ a, a ≠ args.get0 → handles' a = handles a) ∧
    (∀ e, generic h.impl_ args.get1 args.get2 = Except.error e →
      ConcatRange Arc generic args handles
        = Except.error (ScriptError.algorithmic e)) ∧
    (∀ (logHandles : Handles (F × List (Int × Int))) (log : List (Int × Int)) fst',
      logHandles args.get0 = some ⟨Arc, (h.impl_, log)⟩ →
      generic h.impl_ args.get1 args.get2 = Except.ok fst' →
      ∃ handles', ConcatRange Arc (loggedConcatRange generic) args logHandles
          = Except.ok handles' ∧
        handles' args.get0 = some ⟨Arc, (fst', log ++ [(args.get1, args.get2)])⟩ ∧
        ∀ a, a ≠ args.get0 → handles' a = logHandles a) := by
  refine ⟨?_, ?_, ?_⟩
  · intro fst' hg
    refine ⟨Function.update handles args.get0 (some ⟨Arc, fst'⟩), ?_, ?_, ?_⟩
    · rw [ConcatRange_eq Arc generic args handles h hlive harc, hg]
    · simp
    · intro a ha
      simp [Function.update, ha]
  · intro e hg
    rw [ConcatRange_eq Arc generic args handles h hlive harc, hg]
  · intro logHandles log fst' hl hg
    refine ⟨Function.update logHandles args.get0
      (some ⟨Arc, (fst', log ++ [(args.get1, args.get2)])⟩), ?_, ?_, ?_⟩
    · rw [ConcatRange_eq Arc (loggedConcatRange generic) args logHandles _ hl rfl]
      simp only [loggedConcatRange, hg]
    · simp
    · intro a ha
      simp [Function.update, ha]

/-- Instance of C4: the handle at address 7, of arc type "standard", with
`lower = 2` and `upper = 3`. -/
theorem ConcatRange_applies_generic_once_witness :
    Example.handles 7 = some ⟨"standard", 5⟩ ∧
    ∃ handles', ConcatRange "standard" (genericConcatRange Example.rangeRepeat)
        ⟨7, 2, 3⟩ Example.handles = Except.ok handles' ∧
      handles' 7 = some ⟨"standard", 30⟩ ∧
      ∀ a, a ≠ 7 → handles' a = Example.handles a :=
  ⟨rfl, (ConcatRange_applies_generic_once "standard"
    (genericConcatRange Example.rangeRepeat) ⟨7, 2, 3⟩ Example.handles
    ⟨"standard", 5⟩ rfl rfl).1 30 rfl⟩

/-- C5: with `lower > upper` and `upper != 0`, and the generic operation as the
spec describes it, `ConcatRange` reports a failure and hands back no mutated
automaton: through `ConcatRange<Arc>` on a live handle of arc type `Arc` and
through the untemplated entry point on a live handle with a compiled
instantiation the caller gets the generic operation's failure, and for any
handle, live or not and of any type, the call does not complete with a
collection of handles. -/
theorem ConcatRange_invalid_bounds_fails {F : Type} (Arc : String)
    (rangeRepeat : F → Int → Int → F) (handles : Handles F) (p : Nat)
    (lower upper : Int) (hlt : lower > upper) (hne : upper ≠ 0) :
    (∀ h, handles p = some h → h.ArcType = Arc →
      ConcatRange Arc (genericConcatRange rangeRepeat) ⟨p, lower, upper⟩ handles
        = Except.error (ScriptError.algorithmic AlgorithmicFailure.invalidRangeBounds)) ∧
    (∀ h, handles p = some h →
      ConcatRangeFstClass (fun _ => some (genericConcatRange rangeRepeat)) p
          (some lower) (some upper) handles
        = Except.error (ScriptError.algorithmic AlgorithmicFailure.invalidRangeBounds)) ∧
    (∀ handles', ConcatRange Arc (genericConcatRange rangeRepeat)
        ⟨p, lower, upper⟩ handles ≠ Except.ok handles') ∧
    (∀ inst handles',
      (∀ a generic, inst a = some generic → generic = genericConcatRange rangeRepeat) →
      ConcatRangeFstClass inst p (some lower) (some upper) handles
        ≠ Except.ok handles') := by
  have hg : ∀ f : F, genericConcatRange rangeRepeat f lower upper
      = Except.error AlgorithmicFailure.invalidRangeBounds := by
    intro f
    simp [genericConcatRange, hlt, hne]
  have hnot : ∀ (A : String) handles', ConcatRange A (genericConcatRange rangeRepeat)
      ⟨p, lower, upper⟩ handles ≠ Except.ok handles' := by
    intro A handles'
    unfold ConcatRange
    cases hp : handles p with
    | none => simp
    | some h =>
      cases hm : h.GetMutableFst A with
      | none => simp [hm]
      | some f => simp [hm, hg f]
  refine ⟨?_, ?_, hnot Arc, ?_⟩
  · intro h hlive harc
    rw [ConcatRange_eq Arc _ ⟨p, lower, upper⟩ handles h hlive harc]
    simp only [hg h.impl_]
  · intro h hlive
    simp only [ConcatRangeFstClass, hlive, defaultArg]
    rw [ConcatRange_eq h.ArcType _ ⟨p, lower, upper⟩ handles h hlive rfl]
    simp only [hg h.impl_]
  · intro inst handles' hinst
    unfold ConcatRangeFstClass
    cases hp : handles p with
    | none => simp
    | some h =>
      cases hi : inst h.ArcType with
      | none => simp [hi]
      | some generic =>
        have hgen := hinst _ _ hi
        subst hgen
        simp only [hi, defaultArg]
        exact hnot h.ArcType handles'

/-- Instance of C5: the test of the spec, `lower = 3` and `upper = 1`, on the
handle at address 7. -/
theorem ConcatRange_invalid_bounds_fails_witness :
    ((3 : Int) > 1 ∧ (1 : Int) ≠ 0) ∧
    ConcatRange "standard" (genericConcatRange Example.rangeRepeat) ⟨7, 3, 1⟩
        Example.handles
      = Except.error (ScriptError.algorithmic AlgorithmicFailure.invalidRangeBounds) :=
  ⟨by decide, (ConcatRange_invalid_bounds_fails "standard" Example.rangeRepeat
    Example.handles 7 3 1 (by decide) (by decide)).1 ⟨"standard", 5⟩ rfl rfl⟩

/-- C6: the three-argument call `StringPathIteratorClass(fst, t, s)`, with `s`
possibly null, selects the convenience constructor and is the five-argument
constructor `full` at `(fst, t, t, s, s)`; with the five-argument constructor
dispatching as the spec describes, the cursor built wraps the generic iterator
constructed with `t` and `s` on both tapes.  With `s` omitted the convenience
constructor would bind `syms = nullptr`, but the five-argument constructor
binds the call `StringPathIteratorClass(fst, t)` as well, to
`(t, BYTE, nullptr, nullptr)`, and the call is rejected as ambiguous: no cursor
is built. -/
theorem convenience_ctor_omitted_syms_ambiguous {F σ W R : Type}
    (full : FstClass F → StringTokenType → StringTokenType → Option SymbolTable →
      Option SymbolTable → R)
    (fst : FstClass F) (t : StringTokenType) (s : Option SymbolTable) :
    StringPathIteratorClass.construct full fst
        [CtorArg.tokenType t, CtorArg.symbolTable s]
      = Except.ok (full fst t t s s) ∧
    (∀ (inst : String → Option (StringPathIterator F σ W)) G,
      inst fst.ArcType = some G →
      StringPathIteratorClass.construct
          (fun f a b c d => StringPathIteratorClass.ctor inst f (some a) (some b)
            (some c) (some d)) fst [CtorArg.tokenType t, CtorArg.symbolTable s]
        = Except.ok (some ⟨some ⟨G.ctor fst.impl_ t t s s⟩⟩)) ∧
    StringPathIteratorClass.sameCandidate [CtorArg.tokenType t] = some (t, none) ∧
    StringPathIteratorClass.fullCandidate [CtorArg.tokenType t]
      = some (t, StringTokenType.BYTE, none, none) ∧
    StringPathIteratorClass.construct full fst [CtorArg.tokenType t]
      = Except.error OverloadError.ambiguous := by
  refine ⟨rfl, ?_, rfl, rfl, rfl⟩
  intro inst G hG
  simp [StringPathIteratorClass.construct, StringPathIteratorClass.fullCandidate,
    StringPathIteratorClass.sameCandidate, StringPathIteratorClass.ctorSame,
    StringPathIteratorClass.ctor, hG, InitStringPathIteratorClass, FstClass.GetFst,
    StringPathIteratorImpl.ctor, defaultArg]

theorem PathCursor_Next_of_Done {W : Type} (c : PathCursor W)
    (h : c.Done = true) : c.Next = c := by
  simp [PathCursor.Next, h]

/-- C7: with the generic iterator as the spec describes it, on every cursor
with `Done()` true a call of `Next()` returns and leaves the cursor as it was,
so that `Done`, `Error`, the labels, the strings and the weight are what they
were, and so does any number of further `Next()` calls: `Done()` stays true. -/
theorem Next_noop_when_Done {F W : Type} (weightType : String) (zero : W)
    (enumerate : F → List (Path W)) (malformed : F → Bool)
    (render : StringTokenType → Option SymbolTable → List Int → String × Bool)
    (cur : StringPathIteratorClass (PathCursor W))
    (hdone : cur.Done (specStringPathIterator weightType zero enumerate malformed
      render) = some true) :
    cur.Next (specStringPathIterator weightType zero enumerate malformed render)
      = some cur ∧
    ∀ n : Nat,
      applyCalls (specStringPathIterator weightType zero enumerate malformed render)
        (List.replicate n Call.Next) cur = some cur := by
  obtain ⟨impl⟩ := cur
  cases impl with
  | none => simp [StringPathIteratorClass.Done] at hdone
  | some x =>
    obtain ⟨c⟩ := x
    have hd : c.Done = true := by
      simpa [StringPathIteratorClass.Done, StringPathIteratorImpl.Done,
        specStringPathIterator] using hdone
    have hnext : StringPathIteratorClass.Next
        (specStringPathIterator weightType zero enumerate malformed render)
        ⟨some ⟨c⟩⟩ = some ⟨some ⟨c⟩⟩ := by
      simp [StringPathIteratorClass.Next, StringPathIteratorImpl.Next,
        specStringPathIterator, PathCursor_Next_of_Done c hd]
    refine ⟨hnext, ?_⟩
    intro n
    induction n with
    | zero => rfl
    | succ n ih =>
      simp only [List.replicate_succ, applyCalls, hnext]
      exact ih

/-- Instance of C7: the cursor over the paths "ab", "ac", "ad" advanced past
the last of them. -/
theorem Next_noop_when_Done_witness :
    StringPathIteratorClass.Done Example.iter ⟨some ⟨Example.exhausted⟩⟩ = some true ∧
    StringPathIteratorClass.Next Example.iter ⟨some ⟨Example.exhausted⟩⟩
      = some ⟨some ⟨Example.exhausted⟩⟩ :=
  ⟨rfl, (Next_noop_when_Done "tropical" 0 (fun fst => fst) (fun _ => false)
    Example.byteRender ⟨some ⟨Example.exhausted⟩⟩ rfl).1⟩

/-- C8: for every cursor position, `StringPathIteratorClass::Weight()` is the
type-erased wrapping of the wrapped generic iterator's `Weight()`; the second
wrapping, done by the copy constructor, returns a handle with the same weight
type and the same value as the one `StringPathIteratorImpl::Weight()` made. -/
theorem Weight_eq_wrapped_generic_weight {F σ W : Type}
    (G : StringPathIterator F σ W) (x : StringPathIteratorImpl σ) :
    StringPathIteratorClass.Weight G ⟨some x⟩
      = some (WeightClass.ofWeight G.WeightType (G.Weight x.impl_)) ∧
    StringPathIteratorClass.Weight G ⟨some x⟩ = some (x.Weight G) ∧
    (∀ w : WeightClass W, (WeightClass.copy w).weightType = w.weightType ∧
      (WeightClass.copy w).impl_ = w.impl_) := by
  refine ⟨rfl, rfl, ?_⟩
  intro w
  exact ⟨rfl, rfl⟩

theorem applyCalls_eq {F σ W : Type} (G : StringPathIterator F σ W)
    (calls : List Call) (s : σ) :
    applyCalls G calls ⟨some ⟨s⟩⟩ = some ⟨some ⟨applyCallsGeneric G calls s⟩⟩ := by
  induction calls generalizing s with
  | nil => rfl
  | cons c cs ih =>
    cases c with
    | Next =>
      simp only [applyCalls, applyCallsGeneric, StringPathIteratorClass.Next,
        StringPathIteratorImpl.Next]
      exact ih (G.Next s)
    | Reset =>
      simp only [applyCalls, applyCallsGeneric, StringPathIteratorClass.Reset,
        StringPathIteratorImpl.Reset]
      exact ih (G.Reset s)

theorem applyCallsGeneric_logged {F σ W : Type} (G : StringPathIterator F σ W)
    (calls : List Call) (s : σ) (log : List Call) :
    applyCallsGeneric (logged G) calls (s, log)
      = (applyCallsGeneric G calls s, log ++ calls) := by
  induction calls generalizing s log with
  | nil => simp [applyCallsGeneric]
  | cons c cs ih =>
    cases c with
    | Next =>
      simp only [applyCallsGeneric]
      rw [show (logged G).Next (s, log) = (G.Next s, log ++ [Call.Next]) from rfl, ih]
      simp
    | Reset =>
      simp only [applyCallsGeneric]
      rw [show (logged G).Reset (s, log) = (G.Reset s, log ++ [Call.Reset]) from rfl, ih]
      simp

/-- C9: for every state `s` of the wrapped generic iterator and every finite
sequence of `Next()` / `Reset()` calls, the facade cursor wrapping `s` ends up
wrapping the state the generic iterator reaches by the same sequence; its
`Done()`, `Error()`, `IString()` and `OString()` there are those of the generic
iterator; a generic iterator that logs its `Next()` / `Reset()` invocations has
received exactly the sequence of calls made on the facade, each once and in
order; and the string accessors of the facade invoke neither (the log is
unchanged) and leave the cursor in the state the generic accessor leaves. -/
theorem facade_simulates_generic {F σ W : Type} (G : StringPathIterator F σ W)
    (s : σ) (calls : List Call) :
    applyCalls G calls ⟨some ⟨s⟩⟩ = some ⟨some ⟨applyCallsGeneric G calls s⟩⟩ ∧
    StringPathIteratorClass.Done G ⟨some ⟨applyCallsGeneric G calls s⟩⟩
      = some (G.Done (applyCallsGeneric G calls s)) ∧
    StringPathIteratorClass.Error G ⟨some ⟨applyCallsGeneric G calls s⟩⟩
      = some (G.Error (applyCallsGeneric G calls s)) ∧
    StringPathIteratorClass.IString G ⟨some ⟨applyCallsGeneric G calls s⟩⟩
      = some ((G.IString (applyCallsGeneric G calls s)).1,
          ⟨some ⟨(G.IString (applyCallsGeneric G calls s)).2⟩⟩) ∧
    StringPathIteratorClass.OString G ⟨some ⟨applyCallsGeneric G calls s⟩⟩
      = some ((G.OString (applyCallsGeneric G calls s)).1,
          ⟨some ⟨(G.OString (applyCallsGeneric G calls s)).2⟩⟩) ∧
    applyCalls (logged G) calls ⟨some ⟨(s, [])⟩⟩
      = some ⟨some ⟨(applyCallsGeneric G calls s, calls)⟩⟩ ∧
    (∀ (log : List Call) (buf : String),
      StringPathIteratorClass.IString (logged G) ⟨some ⟨(s, log)⟩⟩
        = some ((G.IString s).1, ⟨some ⟨((G.IString s).2, log)⟩⟩) ∧
      StringPathIteratorClass.OString (logged G) ⟨some ⟨(s, log)⟩⟩
        = some ((G.OString s).1, ⟨some ⟨((G.OString s).2, log)⟩⟩) ∧
      StringPathIteratorClass.IStringInto (logged G) ⟨some ⟨(s, log)⟩⟩ buf
        = some ((G.IStringInto s buf).1, ⟨some ⟨((G.IStringInto s buf).2, log)⟩⟩)) := by
  refine ⟨applyCalls_eq G calls s, rfl, rfl, rfl, rfl, ?_, ?_⟩
  · rw [applyCalls_eq (logged G) calls (s, []), applyCallsGeneric_logged]
    simp
  · intro log buf
    exact ⟨rfl, rfl, rfl⟩

theorem InitStringPathIteratorClass_eq {F σ W : Type} (Arc : String)
    (G : StringPathIterator F σ W) (args : InitStringPathIteratorClassArgs F σ)
    (harc : args.get0.ArcType = Arc) :
    InitStringPathIteratorClass Arc G args
      = some ⟨some ⟨G.ctor args.get0.impl_ args.get1 args.get2 args.get3
          args.get4⟩⟩ := by
  subst harc
  simp [InitStringPathIteratorClass, FstClass.GetFst, StringPathIteratorImpl.ctor,
    defaultArg]

/-- C10: for every argument pack whose handle has arc type `Arc`,
`InitStringPathIteratorClass<Arc>` leaves in the target cursor, whatever it
held before, the implementation wrapping the generic iterator constructed over
the handle's automaton with `std::get<1>` as input token type, `std::get<2>` as
output token type, `std::get<3>` as input symbol table and `std::get<4>` as
output symbol table; and the constructors with the token types and symbol
tables omitted use `BYTE`, `BYTE` and no symbol tables. -/
theorem InitStringPathIteratorClass_stores_generic {F σ W : Type} (Arc : String)
    (G : StringPathIterator F σ W) (args : InitStringPathIteratorClassArgs F σ)
    (harc : args.get0.ArcType = Arc) :
    InitStringPathIteratorClass Arc G args
      = some ⟨some ⟨G.ctor args.get0.impl_ args.get1 args.get2 args.get3
          args.get4⟩⟩ ∧
    (∀ prior : StringPathIteratorClass σ,
      InitStringPathIteratorClass Arc G { args with get5 := prior }
        = InitStringPathIteratorClass Arc G args) ∧
    StringPathIteratorImpl.ctor G args.get0.impl_ none none none none
      = ⟨G.ctor args.get0.impl_ StringTokenType.BYTE StringTokenType.BYTE none none⟩ ∧
    (∀ inst : String → Option (StringPathIterator F σ W),
      inst args.get0.ArcType = some G →
      StringPathIteratorClass.ctor inst args.get0 none none none none
        = some ⟨some ⟨G.ctor args.get0.impl_ StringTokenType.BYTE
            StringTokenType.BYTE none none⟩⟩) := by
  refine ⟨InitStringPathIteratorClass_eq Arc G args harc, ?_, rfl, ?_⟩
  · intro prior
    rw [InitStringPathIteratorClass_eq Arc G args harc,
      InitStringPathIteratorClass_eq Arc G { args with get5 := prior } harc]
  · intro inst hG
    simp only [StringPathIteratorClass.ctor, hG]
    exact InitStringPathIteratorClass_eq args.get0.ArcType G
      ⟨args.get0, StringTokenType.BYTE, StringTokenType.BYTE, none, none, ⟨none⟩⟩ rfl

/-- Instance of C10: a "standard" handle, token types `SYMBOL` and `UTF8`, an
input symbol table and no output symbol table, into a cursor that held an
exhausted iterator. -/
theorem InitStringPathIteratorClass_stores_generic_witness :
    InitStringPathIteratorClass "standard" Example.iter
        ⟨⟨"standard", Example.abcd⟩, StringTokenType.SYMBOL, StringTokenType.UTF8,
          some [(97, "a")], none, ⟨some ⟨Example.exhausted⟩⟩⟩
      = some ⟨some ⟨⟨Example.abcd, 0, false, StringTokenType.SYMBOL,
          StringTokenType.UTF8, some [(97, "a")], none⟩⟩⟩ :=
  (InitStringPathIteratorClass_stores_generic "standard" Example.iter
    ⟨⟨"standard", Example.abcd⟩, StringTokenType.SYMBOL, StringTokenType.UTF8,
      some [(97, "a")], none, ⟨some ⟨Example.exhausted⟩⟩⟩ rfl).1

end script

end fst
